import Mathlib

/-!
# Print request submitter (`print_app/static/scripts.js`)

A shallow embedding of the click handler registered on `printBtn`, together
with the parts of the JavaScript platform it calls (`String.prototype.trim`,
`JSON.stringify`, `fetch`, the two DOM elements it reads and writes).

A JavaScript string is a finite sequence of UTF-16 code units; a code unit is
represented by its numeric value.
-/

namespace PrintApp

/-! ## Strings -/

/-- A JavaScript string: its sequence of UTF-16 code units, each by value. -/
abbrev JSString := List Nat

/-- UTF-16 encoding of one Unicode scalar value. -/
def utf16EncodeCodePoint (cp : Nat) : JSString :=
  if cp < 0x10000 then [cp]
  else [0xD800 + (cp - 0x10000) / 0x400, 0xDC00 + (cp - 0x10000) % 0x400]

/-- The JavaScript string denoted by a source-text string literal. -/
def utf16 (s : String) : JSString :=
  s.toList.flatMap fun c => utf16EncodeCodePoint c.toNat

/-- ECMAScript `WhiteSpace` and `LineTerminator` code points, the ones
`String.prototype.trim` strips. -/
def isWhiteSpace (c : Nat) : Bool :=
  c = 0x09 || c = 0x0A || c = 0x0B || c = 0x0C || c = 0x0D || c = 0x20 ||
  c = 0xA0 || c = 0x1680 || (0x2000 ≤ c && c ≤ 0x200A) || c = 0x2028 ||
  c = 0x2029 || c = 0x202F || c = 0x205F || c = 0x3000 || c = 0xFEFF

/-- The `TrimString(S, start)` operation. -/
def trimStart (s : JSString) : JSString :=
  s.dropWhile isWhiteSpace

/-- The `TrimString(S, end)` operation. -/
def trimEnd (s : JSString) : JSString :=
  (s.reverse.dropWhile isWhiteSpace).reverse

/-- The method `String.prototype.trim`. -/
def trim (s : JSString) : JSString :=
  trimEnd (trimStart s)

/-- The abstract operation `ToBoolean` on a string: only the empty string is falsy. -/
def toBoolean (s : JSString) : Bool :=
  !s.isEmpty

/-! ## JSON text: `JSON.stringify` and `JSON.parse` -/

/-- The values that `JSON.stringify` serialises and `JSON.parse` produces.
A number is kept as its lexeme. -/
inductive JSON where
  | null
  | bool (b : Bool)
  | number (lexeme : JSString)
  | string (s : JSString)
  | array (items : List JSON)
  | object (members : List (JSString × JSON))

/-- A leading (high) surrogate code unit. -/
def isLeadingSurrogate (c : Nat) : Bool :=
  0xD800 ≤ c && c ≤ 0xDBFF

/-- A trailing (low) surrogate code unit. -/
def isTrailingSurrogate (c : Nat) : Bool :=
  0xDC00 ≤ c && c ≤ 0xDFFF

/-- The lowercase hexadecimal digit of a value below 16. -/
def hexDigit (n : Nat) : Nat :=
  if n < 10 then 0x30 + n else 0x61 + (n - 10)

/-- The operation `UnicodeEscape(C)`: a backslash, `u`, four lowercase hex digits. -/
def unicodeEscape (c : Nat) : JSString :=
  [0x5C, 0x75, hexDigit (c / 4096 % 16), hexDigit (c / 256 % 16),
    hexDigit (c / 16 % 16), hexDigit (c % 16)]

/-- One step of `QuoteJSONString` for a code point that is a single code unit:
the two-character escapes of the table, `UnicodeEscape` for the other control
characters and for a lone surrogate, the unit itself otherwise. -/
def quoteCodeUnit (c : Nat) : JSString :=
  if c = 0x08 then [0x5C, 0x62]
  else if c = 0x09 then [0x5C, 0x74]
  else if c = 0x0A then [0x5C, 0x6E]
  else if c = 0x0C then [0x5C, 0x66]
  else if c = 0x0D then [0x5C, 0x72]
  else if c = 0x22 then [0x5C, 0x22]
  else if c = 0x5C then [0x5C, 0x5C]
  else if c < 0x20 || isLeadingSurrogate c || isTrailingSurrogate c then unicodeEscape c
  else [c]

/-- The loop of `QuoteJSONString` over the code points of the string: a leading
surrogate followed by a trailing one is a single code point and is copied,
every other code unit is a code point of its own. -/
def quoteCodeUnits : JSString → JSString
  | [] => []
  | [c] => quoteCodeUnit c
  | c :: d :: rest =>
    if isLeadingSurrogate c && isTrailingSurrogate d then c :: d :: quoteCodeUnits rest
    else quoteCodeUnit c ++ quoteCodeUnits (d :: rest)

/-- The operation `QuoteJSONString`. -/
def quoteJSONString (s : JSString) : JSString :=
  0x22 :: (quoteCodeUnits s ++ [0x22])

mutual
/-- The function `JSON.stringify` without replacer or indentation. -/
def stringify : JSON → JSString
  | .null => utf16 "null"
  | .bool true => utf16 "true"
  | .bool false => utf16 "false"
  | .number lexeme => lexeme
  | .string s => quoteJSONString s
  | .array items => 0x5B :: (stringifyElements items ++ [0x5D])
  | .object members => 0x7B :: (stringifyMembers members ++ [0x7D])
/-- The elements of an array, separated by commas. -/
def stringifyElements : List JSON → JSString
  | [] => []
  | [v] => stringify v
  | v :: w :: rest => stringify v ++ 0x2C :: stringifyElements (w :: rest)
/-- The members of an object, each `key:value`, separated by commas. -/
def stringifyMembers : List (JSString × JSON) → JSString
  | [] => []
  | [(k, v)] => quoteJSONString k ++ 0x3A :: stringify v
  | (k, v) :: m :: rest =>
    quoteJSONString k ++ 0x3A :: (stringify v ++ 0x2C :: stringifyMembers (m :: rest))
end

/-- JSON insignificant whitespace: space, tab, line feed, carriage return. -/
def isJSONWhiteSpace (c : Nat) : Bool :=
  c = 0x20 || c = 0x09 || c = 0x0A || c = 0x0D

/-- Skips insignificant whitespace. -/
def skipWhiteSpace (s : JSString) : JSString :=
  s.dropWhile isJSONWhiteSpace

/-- The value of a hexadecimal digit, in either case. -/
def hexValue (c : Nat) : Option Nat :=
  if 0x30 ≤ c ∧ c ≤ 0x39 then some (c - 0x30)
  else if 0x61 ≤ c ∧ c ≤ 0x66 then some (c - 0x61 + 10)
  else if 0x41 ≤ c ∧ c ≤ 0x46 then some (c - 0x41 + 10)
  else none

/-- The code unit denoted by the four hex digits of a `\u` escape. -/
def hex4 (a b c d : Nat) : Option Nat :=
  match hexValue a, hexValue b, hexValue c, hexValue d with
  | some x, some y, some z, some w => some (4096 * x + 256 * y + 16 * z + w)
  | _, _, _, _ => none

/-- The code unit denoted by a single-character escape. -/
def unescape (e : Nat) : Option Nat :=
  if e = 0x22 then some 0x22
  else if e = 0x5C then some 0x5C
  else if e = 0x2F then some 0x2F
  else if e = 0x62 then some 0x08
  else if e = 0x66 then some 0x0C
  else if e = 0x6E then some 0x0A
  else if e = 0x72 then some 0x0D
  else if e = 0x74 then some 0x09
  else none

/-- Puts a decoded code unit in front of the decoded remainder of a string. -/
def consDecoded (c : Nat) : Option (JSString × JSString) → Option (JSString × JSString)
  | some (s, rest) => some (c :: s, rest)
  | none => none

/-- Reads a JSON string after its opening quote: the decoded string and the
input after the closing quote. Unescaped control characters are rejected. -/
def parseStringBody : JSString → Option (JSString × JSString)
  | [] => none
  | c :: rest =>
    if c = 0x22 then some ([], rest)
    else if c = 0x5C then
      match rest with
      | [] => none
      | e :: rest1 =>
        if e = 0x75 then
          match rest1 with
          | h1 :: h2 :: h3 :: h4 :: rest2 =>
            match hex4 h1 h2 h3 h4 with
            | some v => consDecoded v (parseStringBody rest2)
            | none => none
          | _ => none
        else
          match unescape e with
          | some v => consDecoded v (parseStringBody rest1)
          | none => none
    else if c < 0x20 then none
    else consDecoded c (parseStringBody rest)

/-- A decimal digit. -/
def isDigit (c : Nat) : Bool :=
  0x30 ≤ c && c ≤ 0x39

/-- Reads a non-empty run of digits. -/
def parseDigits (s : JSString) : Option (JSString × JSString) :=
  if (s.takeWhile isDigit).isEmpty then none
  else some (s.takeWhile isDigit, s.dropWhile isDigit)

/-- Reads the integer part of a number: a single zero, or a run of digits not
starting with zero. -/
def parseInt (s : JSString) : Option (JSString × JSString) :=
  match s with
  | [] => none
  | c :: rest => if c = 0x30 then some ([c], rest) else parseDigits (c :: rest)

/-- Reads an optional fraction: a point and a non-empty run of digits. -/
def parseFrac (s : JSString) : Option (JSString × JSString) :=
  match s with
  | [] => some ([], [])
  | c :: rest =>
    if c = 0x2E then
      match parseDigits rest with
      | some (ds, r) => some (c :: ds, r)
      | none => none
    else some ([], c :: rest)

/-- Reads an optional exponent: `e` or `E`, an optional sign, a non-empty run of digits. -/
def parseExp (s : JSString) : Option (JSString × JSString) :=
  match s with
  | [] => some ([], [])
  | c :: rest =>
    if c = 0x65 ∨ c = 0x45 then
      match rest with
      | [] => none
      | g :: rest1 =>
        if g = 0x2B ∨ g = 0x2D then
          match parseDigits rest1 with
          | some (ds, r) => some (c :: g :: ds, r)
          | none => none
        else
          match parseDigits (g :: rest1) with
          | some (ds, r) => some (c :: ds, r)
          | none => none
    else some ([], c :: rest)

/-- Reads the lexeme of a JSON number. -/
def parseNumber (s : JSString) : Option (JSString × JSString) :=
  let signed : JSString × JSString :=
    match s with
    | [] => ([], [])
    | c :: rest => if c = 0x2D then ([c], rest) else ([], c :: rest)
  match parseInt signed.2 with
  | none => none
  | some (i, r1) =>
    match parseFrac r1 with
    | none => none
    | some (f, r2) =>
      match parseExp r2 with
      | none => none
      | some (e, r3) => some (signed.1 ++ i ++ f ++ e, r3)

/-- Reads a fixed sequence of code units. -/
def expect : JSString → JSString → Option JSString
  | [], s => some s
  | _ :: _, [] => none
  | p :: ps, c :: rest => if p = c then expect ps rest else none

mutual
/-- Reads one JSON value, leading whitespace allowed. The first argument bounds
the nesting depth. -/
def parseValue : Nat → JSString → Option (JSON × JSString)
  | 0, _ => none
  | fuel + 1, s =>
    match skipWhiteSpace s with
    | [] => none
    | c :: rest =>
      if c = 0x22 then
        match parseStringBody rest with
        | some (str, r) => some (.string str, r)
        | none => none
      else if c = 0x7B then
        match skipWhiteSpace rest with
        | [] => none
        | d :: r =>
          if d = 0x7D then some (.object [], r)
          else
            match parseMembers fuel (d :: r) with
            | some (ms, r1) => some (.object ms, r1)
            | none => none
      else if c = 0x5B then
        match skipWhiteSpace rest with
        | [] => none
        | d :: r =>
          if d = 0x5D then some (.array [], r)
          else
            match parseElements fuel (d :: r) with
            | some (vs, r1) => some (.array vs, r1)
            | none => none
      else if c = 0x74 then
        match expect (utf16 "rue") rest with
        | some r => some (.bool true, r)
        | none => none
      else if c = 0x66 then
        match expect (utf16 "alse") rest with
        | some r => some (.bool false, r)
        | none => none
      else if c = 0x6E then
        match expect (utf16 "ull") rest with
        | some r => some (.null, r)
        | none => none
      else
        match parseNumber (c :: rest) with
        | some (lexeme, r) => some (.number lexeme, r)
        | none => none
/-- Reads the members of a non-empty object up to and including the closing
brace; the input starts at the first key. -/
def parseMembers : Nat → JSString → Option (List (JSString × JSON) × JSString)
  | 0, _ => none
  | fuel + 1, s =>
    match s with
    | [] => none
    | c :: rest =>
      if c = 0x22 then
        match parseStringBody rest with
        | none => none
        | some (k, r1) =>
          match skipWhiteSpace r1 with
          | [] => none
          | d :: r2 =>
            if d = 0x3A then
              match parseValue fuel r2 with
              | none => none
              | some (v, r3) =>
                match skipWhiteSpace r3 with
                | [] => none
                | e :: r4 =>
                  if e = 0x7D then some ([(k, v)], r4)
                  else if e = 0x2C then
                    match parseMembers fuel (skipWhiteSpace r4) with
                    | some (ms, r5) => some ((k, v) :: ms, r5)
                    | none => none
                  else none
            else none
      else none
/-- Reads the elements of a non-empty array up to and including the closing
bracket. -/
def parseElements : Nat → JSString → Option (List JSON × JSString)
  | 0, _ => none
  | fuel + 1, s =>
    match parseValue fuel s with
    | none => none
    | some (v, r1) =>
      match skipWhiteSpace r1 with
      | [] => none
      | e :: r2 =>
        if e = 0x5D then some ([v], r2)
        else if e = 0x2C then
          match parseElements fuel r2 with
          | some (vs, r3) => some (v :: vs, r3)
          | none => none
        else none
end

/-- The function `JSON.parse` without reviver: one value, then only whitespace.
Every nested value starts after at least one consumed code unit, so the length
of the text bounds the depth. -/
def parse (text : JSString) : Option JSON :=
  match parseValue (text.length + 1) text with
  | some (v, rest) => if (skipWhiteSpace rest).isEmpty then some v else none
  | none => none

/-! ## The page and the network -/

/-- The element with id `text`, read through its `value`. -/
structure InputElement where
  value : JSString
  deriving DecidableEq

/-- The element with id `status`, written through `textContent` and `style.color`. -/
structure StatusElement where
  textContent : JSString
  color : JSString
  deriving DecidableEq

/-- What `document.getElementById` finds for the two ids the handler looks up:
the element, or `null`. -/
structure Document where
  text : Option InputElement
  status : Option StatusElement
  deriving DecidableEq

/-- The arguments of a `fetch` call. -/
structure Request where
  url : JSString
  method : JSString
  headers : List (JSString × JSString)
  body : JSString
  deriving DecidableEq

/-- A completed HTTP exchange. -/
structure Response where
  status : Nat
  body : JSString
  deriving DecidableEq

/-- The attribute `Response.ok`: the status is in the range 200 to 299. -/
def Response.ok (res : Response) : Bool :=
  200 ≤ res.status && res.status ≤ 299

/-- A thrown value: the `TypeError` of a property access on `null`, or any
other value, such as the rejection reason of a `fetch`. -/
inductive Thrown where
  | typeError
  | reason (v : JSON)

/-- How the promise returned by `fetch` settles. -/
inductive FetchOutcome where
  | fulfilled (res : Response)
  | rejected (e : Thrown)

/-- The effects the handler has on its environment. -/
inductive Effect where
  | fetch (req : Request)
  | setTextContent (s : JSString)
  | setColor (s : JSString)

/-- How a piece of code completes: normally, or by throwing. For the handler as
a whole these are the fulfilment and the rejection of the promise it returns. -/
inductive Completion where
  | normal
  | throw (e : Thrown)

/-- The result of running a piece of the handler: the document afterwards, the
effects performed in order, and the completion. -/
structure Run where
  doc : Document
  effects : List Effect
  completion : Completion

/-- Where the handler stands after its synchronous part: finished, or suspended
at `await fetch(...)`. -/
inductive Suspension where
  | finished (c : Completion)
  | awaiting (req : Request)

/-- The result of the synchronous part of the handler. -/
structure Started where
  doc : Document
  effects : List Effect
  next : Suspension

/-! ## The click handler -/

/-- The pair of assignments `statusEl.textContent = msg; statusEl.style.color = color`.
With `statusEl` being `null` the first assignment throws a `TypeError`. -/
def setStatus (msg color : JSString) (doc : Document) : Run :=
  match doc.status with
  | none => ⟨doc, [], .throw .typeError⟩
  | some el =>
    let el1 : StatusElement := { el with textContent := msg }
    let el2 : StatusElement := { el1 with color := color }
    ⟨{ doc with status := some el2 }, [.setTextContent msg, .setColor color], .normal⟩

/-- The request of lines 16-20: `fetch('/print', { method, headers, body })`. -/
def printRequest (text : JSString) : Request :=
  { url := utf16 "/print"
    method := utf16 "POST"
    headers := [(utf16 "Content-Type", utf16 "application/json")]
    body := stringify (.object [(utf16 "content", .string text)]) }

/-- Lines 6-16, the handler up to its suspension: read the text, validate it,
and either report the empty input or call `fetch`. -/
def onClick (doc : Document) : Started :=
  match doc.text with
  | none => ⟨doc, [], .finished (.throw .typeError)⟩
  | some input =>
    let text := input.value
    if !toBoolean (trim text) then
      let r := setStatus (utf16 "Введите текст!") (utf16 "red") doc
      ⟨r.doc, r.effects, .finished r.completion⟩
    else
      ⟨doc, [.fetch (printRequest text)], .awaiting (printRequest text)⟩

/-- Lines 16-32, the handler from the settlement of the `fetch` promise on: the
rest of the `try` block, then the `catch` block if anything was thrown. -/
def onSettled (o : FetchOutcome) (doc : Document) : Run :=
  let tryBlock : Run :=
    match o with
    | .rejected e => ⟨doc, [], .throw e⟩
    | .fulfilled res =>
      if res.ok then setStatus (utf16 "Отправлено на печать!") (utf16 "green") doc
      else setStatus (utf16 "Ошибка при отправке!") (utf16 "red") doc
  match tryBlock.completion with
  | .normal => tryBlock
  | .throw _ =>
    let c := setStatus (utf16 "Ошибка соединения!") (utf16 "red") tryBlock.doc
    ⟨c.doc, tryBlock.effects ++ c.effects, c.completion⟩

/-- One activation of the handler run to its end, the `fetch` it may issue
settling as `o`. -/
def clickHandler (doc : Document) (o : FetchOutcome) : Run :=
  let s := onClick doc
  match s.next with
  | .finished c => ⟨s.doc, s.effects, c⟩
  | .awaiting _ =>
    let r := onSettled o s.doc
    ⟨r.doc, s.effects ++ r.effects, r.completion⟩

/-- The requests among a sequence of effects. -/
def requests : List Effect → List Request
  | [] => []
  | .fetch req :: es => req :: requests es
  | _ :: es => requests es

/-- The status writes among a sequence of effects. -/
def statusWrites : List Effect → List Effect
  | [] => []
  | .fetch _ :: es => statusWrites es
  | e :: es => e :: statusWrites es

/-! ## Interleaved activations -/

/-- The page over time. Activations are numbered from 0 in the order of the
clicks; `pending` lists those suspended at `await`; `writer` records which
activation wrote the status that is displayed. -/
structure Session where
  doc : Document
  pending : List Nat
  started : Nat
  writer : Option Nat

/-- What can happen on the page: the user edits the input, the user clicks the
button, the `fetch` of a suspended activation settles. -/
inductive Event where
  | edit (text : JSString)
  | click
  | settle (id : Nat) (o : FetchOutcome)

/-- One turn of the event loop. A settlement for an activation that is not
suspended is not an event of the page and changes nothing. -/
def step (s : Session) : Event → Session
  | .edit text =>
    { s with doc := { s.doc with text := s.doc.text.map fun el => { el with value := text } } }
  | .click =>
    let r := onClick s.doc
    { doc := r.doc
      pending :=
        match r.next with
        | .awaiting _ => s.pending ++ [s.started]
        | .finished _ => s.pending
      started := s.started + 1
      writer := if (statusWrites r.effects).isEmpty then s.writer else some s.started }
  | .settle id o =>
    if id ∈ s.pending then
      let r := onSettled o s.doc
      { doc := r.doc
        pending := s.pending.erase id
        started := s.started
        writer := if (statusWrites r.effects).isEmpty then s.writer else some id }
    else s

/-- The page after a sequence of events. -/
def run (s : Session) (events : List Event) : Session :=
  events.foldl step s

/-- A freshly loaded page with both elements, nothing submitted yet. -/
def load (input : InputElement) (status : StatusElement) : Session :=
  { doc := ⟨some input, some status⟩, pending := [], started := 0, writer := none }

/-- Two submissions of "Hello" suspended at the same time. -/
def twoInFlight : Session :=
  run (load ⟨utf16 "Hello"⟩ ⟨[], []⟩) [.click, .click]

/-- Two submissions of "Hello", the second answered 200 before the first is
answered 500. -/
def overtaken : Session :=
  run (load ⟨utf16 "Hello"⟩ ⟨[], []⟩)
    [.click, .click, .settle 1 (.fulfilled ⟨200, []⟩), .settle 0 (.fulfilled ⟨500, []⟩)]

/-- No activation starts while a request is pending: every click of the
sequence finds `pending` empty. -/
def noOverlap : Session → List Event → Bool
  | _, [] => true
  | s, e :: es =>
    (match e with
      | .click => s.pending.isEmpty
      | _ => true) && noOverlap (step s e) es

/-- The numbering of activations is consistent: the suspended activations are
distinct and have been started, and the activation that wrote the status has
been started and is no longer suspended. -/
def WellNumbered (s : Session) : Prop :=
  s.pending.Nodup ∧ (∀ i ∈ s.pending, i < s.started) ∧
    ∀ k, s.writer = some k → k < s.started ∧ k ∉ s.pending

/-- The state of a page with both elements on which activations never overlap:
either nothing is suspended and the status was written by the most recent
activation, if any, or exactly the most recent activation is suspended. -/
def Sequential (s : Session) : Prop :=
  (∃ input el, s.doc.text = some input ∧ s.doc.status = some el) ∧
    ((s.pending = [] ∧ (s.started = 0 ∨ s.writer = some (s.started - 1))) ∨
      (s.pending = [s.started - 1] ∧ 0 < s.started))

/-- The status the spec assigns to a submission whose request has settled:
the "submitted" message in green for a response in 200..299, the "submission
failed" message in red for any other response, the "connection failed" message
in red when the request could not complete. -/
def reportedStatus : FetchOutcome → StatusElement
  | .fulfilled res =>
    if 200 ≤ res.status ∧ res.status ≤ 299 then ⟨utf16 "Отправлено на печать!", utf16 "green"⟩
    else ⟨utf16 "Ошибка при отправке!", utf16 "red"⟩
  | .rejected _ => ⟨utf16 "Ошибка соединения!", utf16 "red"⟩

/-- What an event makes a submission report, in the spec's words: a click on
an input whose trimmed text is empty reports "input required" at once, for the
activation it starts; the settlement of a pending request reports the status of
its outcome, for the activation that issued it; nothing else reports. -/
def reportOf (s : Session) : Event → Option (Nat × StatusElement)
  | .edit _ => none
  | .click =>
    match s.doc.text with
    | some input =>
      if trim input.value = [] then some (s.started, ⟨utf16 "Введите текст!", utf16 "red"⟩)
      else none
    | none => none
  | .settle id o => if id ∈ s.pending then some (id, reportedStatus o) else none

/-- The last report made during a sequence of events: the activation that made
it and the status it reported. -/
def lastReport : Session → List Event → Option (Nat × StatusElement)
  | _, [] => none
  | s, e :: es =>
    match lastReport (step s e) es with
    | some r => some r
    | none => reportOf s e

/-! ## Validation -/

theorem trimStart_eq_nil_iff (s : JSString) :
    trimStart s = [] ↔ ∀ c ∈ s, isWhiteSpace c = true := by
  simp [trimStart, List.dropWhile_eq_nil_iff]

theorem trim_eq_nil_iff (s : JSString) :
    trim s = [] ↔ ∀ c ∈ s, isWhiteSpace c = true := by
  constructor
  · intro h
    have h1 : ∀ c ∈ trimStart s, isWhiteSpace c = true := by
      simpa [trim, trimEnd, List.dropWhile_eq_nil_iff] using h
    cases hs : trimStart s with
    | nil => exact (trimStart_eq_nil_iff s).mp hs
    | cons a l =>
      have ha : isWhiteSpace a = true := h1 a (by simp [hs])
      have hhead : (trimStart s).head? = some a := by simp [hs]
      have := List.head?_dropWhile_not isWhiteSpace s
      simp [trimStart] at hhead
      simp [hhead, ha] at this
  · intro h
    have hs : trimStart s = [] := (trimStart_eq_nil_iff s).mpr h
    simp [trim, trimEnd, hs]

theorem not_toBoolean_trim (s : JSString) : (!toBoolean (trim s)) = true ↔ trim s = [] := by
  simp [toBoolean]

/-! ## The handler, branch by branch -/

theorem setStatus_of_some (msg color : JSString) (doc : Document) (el : StatusElement)
    (hStatus : doc.status = some el) :
    setStatus msg color doc =
      ⟨{ doc with status := some ⟨msg, color⟩ }, [.setTextContent msg, .setColor color], .normal⟩ := by
  simp [setStatus, hStatus]

theorem onClick_of_empty (doc : Document) (input : InputElement)
    (hText : doc.text = some input) (hEmpty : trim input.value = []) :
    onClick doc =
      ⟨(setStatus (utf16 "Введите текст!") (utf16 "red") doc).doc,
        (setStatus (utf16 "Введите текст!") (utf16 "red") doc).effects,
        .finished (setStatus (utf16 "Введите текст!") (utf16 "red") doc).completion⟩ := by
  simp [onClick, hText, toBoolean, hEmpty]

theorem onClick_of_nonempty (doc : Document) (input : InputElement)
    (hText : doc.text = some input) (hValid : trim input.value ≠ []) :
    onClick doc =
      ⟨doc, [.fetch (printRequest input.value)], .awaiting (printRequest input.value)⟩ := by
  simp [onClick, hText, toBoolean, hValid]

theorem onSettled_of_ok (doc : Document) (el : StatusElement) (res : Response)
    (hStatus : doc.status = some el) (hOk : res.ok = true) :
    onSettled (.fulfilled res) doc =
      ⟨{ doc with status := some ⟨utf16 "Отправлено на печать!", utf16 "green"⟩ },
        [.setTextContent (utf16 "Отправлено на печать!"), .setColor (utf16 "green")], .normal⟩ := by
  simp [onSettled, hOk, setStatus_of_some _ _ doc el hStatus]

theorem onSettled_of_not_ok (doc : Document) (el : StatusElement) (res : Response)
    (hStatus : doc.status = some el) (hOk : res.ok = false) :
    onSettled (.fulfilled res) doc =
      ⟨{ doc with status := some ⟨utf16 "Ошибка при отправке!", utf16 "red"⟩ },
        [.setTextContent (utf16 "Ошибка при отправке!"), .setColor (utf16 "red")], .normal⟩ := by
  simp [onSettled, hOk, setStatus_of_some _ _ doc el hStatus]

theorem onSettled_of_rejected (doc : Document) (el : StatusElement) (e : Thrown)
    (hStatus : doc.status = some el) :
    onSettled (.rejected e) doc =
      ⟨{ doc with status := some ⟨utf16 "Ошибка соединения!", utf16 "red"⟩ },
        [.setTextContent (utf16 "Ошибка соединения!"), .setColor (utf16 "red")], .normal⟩ := by
  simp [onSettled, setStatus_of_some _ _ doc el hStatus]

theorem clickHandler_of_empty (doc : Document) (input : InputElement) (el : StatusElement)
    (o : FetchOutcome) (hText : doc.text = some input) (hStatus : doc.status = some el)
    (hEmpty : trim input.value = []) :
    clickHandler doc o =
      ⟨{ doc with status := some ⟨utf16 "Введите текст!", utf16 "red"⟩ },
        [.setTextContent (utf16 "Введите текст!"), .setColor (utf16 "red")], .normal⟩ := by
  simp [clickHandler, onClick_of_empty doc input hText hEmpty, setStatus_of_some _ _ doc el hStatus]

theorem clickHandler_of_nonempty (doc : Document) (input : InputElement) (o : FetchOutcome)
    (hText : doc.text = some input) (hValid : trim input.value ≠ []) :
    clickHandler doc o =
      ⟨(onSettled o doc).doc, .fetch (printRequest input.value) :: (onSettled o doc).effects,
        (onSettled o doc).completion⟩ := by
  simp [clickHandler, onClick_of_nonempty doc input hText hValid]

theorem requests_clickHandler_of_nonempty (doc : Document) (input : InputElement)
    (o : FetchOutcome) (hText : doc.text = some input) (hValid : trim input.value ≠ []) :
    requests (clickHandler doc o).effects = [printRequest input.value] := by
  rw [clickHandler_of_nonempty doc input o hText hValid]
  cases o with
  | fulfilled res =>
    cases hs : doc.status with
    | none => cases hok : res.ok <;> simp [requests, onSettled, setStatus, hs, hok]
    | some el => cases hok : res.ok <;> simp [requests, onSettled, setStatus, hs, hok]
  | rejected e =>
    cases hs : doc.status <;> simp [requests, onSettled, setStatus, hs]

theorem ok_iff (res : Response) : res.ok = true ↔ 200 ≤ res.status ∧ res.status ≤ 299 := by
  simp [Response.ok]

/-! ## One activation -/

/-- C1: on a page with both elements, when the trimmed input text is empty the
handler issues no request, whatever the server would have answered, and ends
with status text "Введите текст!" in colour "red". -/
theorem empty_input_rejected (doc : Document) (input : InputElement) (el : StatusElement)
    (o : FetchOutcome) (hText : doc.text = some input) (hStatus : doc.status = some el)
    (hEmpty : trim input.value = []) :
    requests (clickHandler doc o).effects = [] ∧
    (clickHandler doc o).doc.status = some ⟨utf16 "Введите текст!", utf16 "red"⟩ ∧
    (clickHandler doc o).completion = .normal := by
  rw [clickHandler_of_empty doc input el o hText hStatus hEmpty]
  simp [requests]

theorem empty_input_rejected_witness :
    trim (utf16 "   ") = [] ∧
    requests (clickHandler ⟨some ⟨utf16 "   "⟩, some ⟨[], []⟩⟩
      (.fulfilled ⟨200, []⟩)).effects = [] ∧
    (clickHandler ⟨some ⟨utf16 "   "⟩, some ⟨[], []⟩⟩ (.fulfilled ⟨200, []⟩)).doc.status =
      some ⟨utf16 "Введите текст!", utf16 "red"⟩ ∧
    (clickHandler ⟨some ⟨utf16 "   "⟩, some ⟨[], []⟩⟩ (.fulfilled ⟨200, []⟩)).completion =
      .normal :=
  ⟨by decide, empty_input_rejected ⟨some ⟨utf16 "   "⟩, some ⟨[], []⟩⟩ ⟨utf16 "   "⟩ ⟨[], []⟩
    (.fulfilled ⟨200, []⟩) rfl rfl (by decide)⟩

/-- C2: when the trimmed input text is non-empty the handler issues exactly one
request, with method POST, path "/print" and the single header
Content-Type: application/json, whatever the text and however the request settles. -/
theorem one_post_request (doc : Document) (input : InputElement) (o : FetchOutcome)
    (hText : doc.text = some input) (hValid : trim input.value ≠ []) :
    ∃ req, requests (clickHandler doc o).effects = [req] ∧
      req.method = utf16 "POST" ∧ req.url = utf16 "/print" ∧
      req.headers = [(utf16 "Content-Type", utf16 "application/json")] := by
  exact ⟨printRequest input.value, requests_clickHandler_of_nonempty doc input o hText hValid,
    rfl, rfl, rfl⟩

theorem one_post_request_witness :
    trim (utf16 "Hello") ≠ [] ∧
    ∃ req, requests (clickHandler ⟨some ⟨utf16 "Hello"⟩, some ⟨[], []⟩⟩
        (.rejected .typeError)).effects = [req] ∧
      req.method = utf16 "POST" ∧ req.url = utf16 "/print" ∧
      req.headers = [(utf16 "Content-Type", utf16 "application/json")] :=
  ⟨by decide, one_post_request ⟨some ⟨utf16 "Hello"⟩, some ⟨[], []⟩⟩ ⟨utf16 "Hello"⟩
    (.rejected .typeError) rfl (by decide)⟩

/-- C4: on a page with both elements, for a text that passes validation and a
response with a status code in 200..299, whatever its body, the handler ends
with status text "Отправлено на печать!" in colour "green". -/
theorem success_reported (doc : Document) (input : InputElement) (el : StatusElement)
    (res : Response) (hText : doc.text = some input) (hStatus : doc.status = some el)
    (hValid : trim input.value ≠ []) (hCode : 200 ≤ res.status ∧ res.status ≤ 299) :
    (clickHandler doc (.fulfilled res)).doc.status =
      some ⟨utf16 "Отправлено на печать!", utf16 "green"⟩ ∧
    (clickHandler doc (.fulfilled res)).completion = .normal := by
  rw [clickHandler_of_nonempty doc input _ hText hValid,
    onSettled_of_ok doc el res hStatus ((ok_iff res).mpr hCode)]
  exact ⟨rfl, rfl⟩

theorem success_reported_witness :
    trim (utf16 "Hello") ≠ [] ∧ (200 ≤ 200 ∧ 200 ≤ 299) ∧
    (clickHandler ⟨some ⟨utf16 "Hello"⟩, some ⟨[], []⟩⟩ (.fulfilled ⟨200, []⟩)).doc.status =
      some ⟨utf16 "Отправлено на печать!", utf16 "green"⟩ ∧
    (clickHandler ⟨some ⟨utf16 "Hello"⟩, some ⟨[], []⟩⟩ (.fulfilled ⟨200, []⟩)).completion =
      .normal :=
  ⟨by decide, by decide, success_reported ⟨some ⟨utf16 "Hello"⟩, some ⟨[], []⟩⟩ ⟨utf16 "Hello"⟩
    ⟨[], []⟩ ⟨200, []⟩ rfl rfl (by decide) (by decide)⟩

/-- C5: on a page with both elements, for a text that passes validation and a
response with a status code outside 200..299, the handler ends with status text
"Ошибка при отправке!" in colour "red", and any two such responses, whatever
their codes and bodies, lead to the same result. -/
theorem server_failure_reported (doc : Document) (input : InputElement) (el : StatusElement)
    (res res2 : Response) (hText : doc.text = some input) (hStatus : doc.status = some el)
    (hValid : trim input.value ≠ [])
    (hCode : ¬ (200 ≤ res.status ∧ res.status ≤ 299))
    (hCode2 : ¬ (200 ≤ res2.status ∧ res2.status ≤ 299)) :
    (clickHandler doc (.fulfilled res)).doc.status =
      some ⟨utf16 "Ошибка при отправке!", utf16 "red"⟩ ∧
    (clickHandler doc (.fulfilled res)).completion = .normal ∧
    clickHandler doc (.fulfilled res) = clickHandler doc (.fulfilled res2) := by
  have h1 : res.ok = false := by
    cases h : res.ok
    · rfl
    · exact absurd ((ok_iff res).mp h) hCode
  have h2 : res2.ok = false := by
    cases h : res2.ok
    · rfl
    · exact absurd ((ok_iff res2).mp h) hCode2
  rw [clickHandler_of_nonempty doc input _ hText hValid,
    clickHandler_of_nonempty doc input _ hText hValid,
    onSettled_of_not_ok doc el res hStatus h1, onSettled_of_not_ok doc el res2 hStatus h2]
  exact ⟨rfl, rfl, rfl⟩

theorem server_failure_reported_witness :
    trim (utf16 "Hello") ≠ [] ∧ ¬ (200 ≤ 500 ∧ 500 ≤ 299) ∧ ¬ (200 ≤ 199 ∧ 199 ≤ 299) ∧
    (clickHandler ⟨some ⟨utf16 "Hello"⟩, some ⟨[], []⟩⟩ (.fulfilled ⟨500, []⟩)).doc.status =
      some ⟨utf16 "Ошибка при отправке!", utf16 "red"⟩ ∧
    (clickHandler ⟨some ⟨utf16 "Hello"⟩, some ⟨[], []⟩⟩ (.fulfilled ⟨500, []⟩)).completion =
      .normal ∧
    clickHandler ⟨some ⟨utf16 "Hello"⟩, some ⟨[], []⟩⟩ (.fulfilled ⟨500, []⟩) =
      clickHandler ⟨some ⟨utf16 "Hello"⟩, some ⟨[], []⟩⟩ (.fulfilled ⟨199, utf16 "busy"⟩) :=
  ⟨by decide, by decide, by decide,
    server_failure_reported ⟨some ⟨utf16 "Hello"⟩, some ⟨[], []⟩⟩ ⟨utf16 "Hello"⟩ ⟨[], []⟩
      ⟨500, []⟩ ⟨199, utf16 "busy"⟩ rfl rfl (by decide) (by decide) (by decide)⟩

/-- C6: on a page with both elements, for a text that passes validation, when
the network call throws or rejects, with whatever value, the handler catches it
and ends with status text "Ошибка соединения!" in colour "red". -/
theorem transport_failure_reported (doc : Document) (input : InputElement) (el : StatusElement)
    (e : Thrown) (hText : doc.text = some input) (hStatus : doc.status = some el)
    (hValid : trim input.value ≠ []) :
    (clickHandler doc (.rejected e)).doc.status =
      some ⟨utf16 "Ошибка соединения!", utf16 "red"⟩ ∧
    (clickHandler doc (.rejected e)).completion = .normal := by
  rw [clickHandler_of_nonempty doc input _ hText hValid, onSettled_of_rejected doc el e hStatus]
  exact ⟨rfl, rfl⟩

theorem transport_failure_reported_witness :
    trim (utf16 "Hello") ≠ [] ∧
    (clickHandler ⟨some ⟨utf16 "Hello"⟩, some ⟨[], []⟩⟩
      (.rejected (.reason (.string (utf16 "Failed to fetch"))))).doc.status =
      some ⟨utf16 "Ошибка соединения!", utf16 "red"⟩ ∧
    (clickHandler ⟨some ⟨utf16 "Hello"⟩, some ⟨[], []⟩⟩
      (.rejected (.reason (.string (utf16 "Failed to fetch"))))).completion = .normal :=
  ⟨by decide, transport_failure_reported ⟨some ⟨utf16 "Hello"⟩, some ⟨[], []⟩⟩ ⟨utf16 "Hello"⟩
    ⟨[], []⟩ (.reason (.string (utf16 "Failed to fetch"))) rfl rfl (by decide)⟩

/-- C7: on a page with both elements, for every input text and every way the
network call settles the handler completes normally, and the three failure
kinds (empty input, response outside 200..299, transport failure) end with
three pairwise distinct status texts. -/
theorem failures_reported_not_thrown (doc : Document) (input : InputElement)
    (el : StatusElement) (o : FetchOutcome) (blank valid : InputElement) (res : Response)
    (e : Thrown) (hText : doc.text = some input) (hStatus : doc.status = some el)
    (hBlank : trim blank.value = []) (hValid : trim valid.value ≠ [])
    (hCode : ¬ (200 ≤ res.status ∧ res.status ≤ 299)) :
    (clickHandler doc o).completion = .normal ∧
    ∃ m1 m2 m3 c1 c2 c3,
      (clickHandler { doc with text := some blank } o).doc.status = some ⟨m1, c1⟩ ∧
      (clickHandler { doc with text := some valid } (.fulfilled res)).doc.status =
        some ⟨m2, c2⟩ ∧
      (clickHandler { doc with text := some valid } (.rejected e)).doc.status = some ⟨m3, c3⟩ ∧
      m1 ≠ m2 ∧ m1 ≠ m3 ∧ m2 ≠ m3 := by
  constructor
  · by_cases hE : trim input.value = []
    · rw [clickHandler_of_empty doc input el o hText hStatus hE]
    · rw [clickHandler_of_nonempty doc input o hText hE]
      cases o with
      | fulfilled r =>
        cases hok : r.ok
        · rw [onSettled_of_not_ok doc el r hStatus hok]
        · rw [onSettled_of_ok doc el r hStatus hok]
      | rejected t => rw [onSettled_of_rejected doc el t hStatus]
  · refine ⟨utf16 "Введите текст!", utf16 "Ошибка при отправке!", utf16 "Ошибка соединения!",
      utf16 "red", utf16 "red", utf16 "red", ?_, ?_, ?_, by decide, by decide, by decide⟩
    · exact (empty_input_rejected { doc with text := some blank } blank el o rfl hStatus
        hBlank).2.1
    · exact (server_failure_reported { doc with text := some valid } valid el res res rfl
        hStatus hValid hCode hCode).1
    · exact (transport_failure_reported { doc with text := some valid } valid el e rfl
        hStatus hValid).1

theorem failures_reported_not_thrown_witness :
    trim (utf16 " ") = [] ∧ trim (utf16 "Hello") ≠ [] ∧ ¬ (200 ≤ 404 ∧ 404 ≤ 299) ∧
    (clickHandler ⟨some ⟨utf16 "Hi"⟩, some ⟨[], []⟩⟩ (.fulfilled ⟨201, []⟩)).completion =
      .normal ∧
    ∃ m1 m2 m3 c1 c2 c3,
      (clickHandler { (⟨some ⟨utf16 "Hi"⟩, some ⟨[], []⟩⟩ : Document) with
        text := some ⟨utf16 " "⟩ } (.fulfilled ⟨201, []⟩)).doc.status = some ⟨m1, c1⟩ ∧
      (clickHandler { (⟨some ⟨utf16 "Hi"⟩, some ⟨[], []⟩⟩ : Document) with
        text := some ⟨utf16 "Hello"⟩ } (.fulfilled ⟨404, []⟩)).doc.status = some ⟨m2, c2⟩ ∧
      (clickHandler { (⟨some ⟨utf16 "Hi"⟩, some ⟨[], []⟩⟩ : Document) with
        text := some ⟨utf16 "Hello"⟩ } (.rejected .typeError)).doc.status = some ⟨m3, c3⟩ ∧
      m1 ≠ m2 ∧ m1 ≠ m3 ∧ m2 ≠ m3 :=
  ⟨by decide, by decide, by decide,
    failures_reported_not_thrown ⟨some ⟨utf16 "Hi"⟩, some ⟨[], []⟩⟩ ⟨utf16 "Hi"⟩ ⟨[], []⟩
      (.fulfilled ⟨201, []⟩) ⟨utf16 " "⟩ ⟨utf16 "Hello"⟩ ⟨404, []⟩ .typeError rfl rfl
      (by decide) (by decide) (by decide)⟩

/-- C8, as stated, fails: an activation on a blank input issues no network call
at all. -/
theorem one_call_per_activation_counterexample :
    requests (clickHandler ⟨some ⟨utf16 "   "⟩, some ⟨[], []⟩⟩
      (.fulfilled ⟨200, []⟩)).effects = [] ∧
    (requests (clickHandler ⟨some ⟨utf16 "   "⟩, some ⟨[], []⟩⟩
      (.fulfilled ⟨200, []⟩)).effects).length ≠ 1 := by
  decide

/-- C8, amended: on a page with both elements, an activation whose network call
(if any) settles performs exactly one status mutation, a write of the text
followed by a write of the colour, preceded by exactly one network call when
the trimmed input is non-empty and by none when it is empty; it has no other
effect, the input text is unchanged and the document differs only in the
status text and colour. -/
theorem effects_of_activation (doc : Document) (input : InputElement) (el : StatusElement)
    (o : FetchOutcome) (hText : doc.text = some input) (hStatus : doc.status = some el) :
    ∃ msg color,
      (clickHandler doc o).effects =
        (if trim input.value = [] then [] else [.fetch (printRequest input.value)]) ++
          [.setTextContent msg, .setColor color] ∧
      (clickHandler doc o).doc.text = doc.text ∧
      (clickHandler doc o).doc = { doc with status := some ⟨msg, color⟩ } := by
  by_cases hE : trim input.value = []
  · rw [clickHandler_of_empty doc input el o hText hStatus hE]
    exact ⟨_, _, by simp [hE], rfl, rfl⟩
  · rw [clickHandler_of_nonempty doc input o hText hE]
    cases o with
    | fulfilled r =>
      cases hok : r.ok
      · rw [onSettled_of_not_ok doc el r hStatus hok]
        exact ⟨_, _, by simp [hE], rfl, rfl⟩
      · rw [onSettled_of_ok doc el r hStatus hok]
        exact ⟨_, _, by simp [hE], rfl, rfl⟩
    | rejected t =>
      rw [onSettled_of_rejected doc el t hStatus]
      exact ⟨_, _, by simp [hE], rfl, rfl⟩

theorem effects_of_activation_witness :
    ∃ msg color,
      (clickHandler ⟨some ⟨utf16 "Hello"⟩, some ⟨[], []⟩⟩ (.fulfilled ⟨200, []⟩)).effects =
        (if trim (InputElement.mk (utf16 "Hello")).value = [] then []
          else [.fetch (printRequest (InputElement.mk (utf16 "Hello")).value)]) ++
          [.setTextContent msg, .setColor color] ∧
      (clickHandler ⟨some ⟨utf16 "Hello"⟩, some ⟨[], []⟩⟩ (.fulfilled ⟨200, []⟩)).doc.text =
        (Document.mk (some ⟨utf16 "Hello"⟩) (some ⟨[], []⟩)).text ∧
      (clickHandler ⟨some ⟨utf16 "Hello"⟩, some ⟨[], []⟩⟩ (.fulfilled ⟨200, []⟩)).doc =
        { (Document.mk (some ⟨utf16 "Hello"⟩) (some ⟨[], []⟩)) with
          status := some ⟨msg, color⟩ } :=
  effects_of_activation ⟨some ⟨utf16 "Hello"⟩, some ⟨[], []⟩⟩ ⟨utf16 "Hello"⟩ ⟨[], []⟩
    (.fulfilled ⟨200, []⟩) rfl rfl

/-! ## The request body -/

theorem hexValue_hexDigit (n : Nat) (h : n < 16) : hexValue (hexDigit n) = some n := by
  interval_cases n <;> decide

theorem hex4_unicodeEscape (c : Nat) (h : c < 65536) :
    hex4 (hexDigit (c / 4096 % 16)) (hexDigit (c / 256 % 16)) (hexDigit (c / 16 % 16))
      (hexDigit (c % 16)) = some c := by
  have h3 : c / 4096 % 16 < 16 := Nat.mod_lt _ (by decide)
  have h2 : c / 256 % 16 < 16 := Nat.mod_lt _ (by decide)
  have h1 : c / 16 % 16 < 16 := Nat.mod_lt _ (by decide)
  have h0 : c % 16 < 16 := Nat.mod_lt _ (by decide)
  simp only [hex4, hexValue_hexDigit _ h3, hexValue_hexDigit _ h2, hexValue_hexDigit _ h1,
    hexValue_hexDigit _ h0, Option.some.injEq]
  omega

theorem parseStringBody_quote (rest : JSString) :
    parseStringBody (0x22 :: rest) = some ([], rest) := by
  rw [parseStringBody.eq_def]
  simp

theorem parseStringBody_escape (e v : Nat) (rest : JSString) (he : e ≠ 0x75)
    (hv : unescape e = some v) :
    parseStringBody (0x5C :: e :: rest) = consDecoded v (parseStringBody rest) := by
  rw [parseStringBody.eq_def]
  simp [he, hv]

theorem parseStringBody_unicode (a b c d v : Nat) (rest : JSString)
    (hv : hex4 a b c d = some v) :
    parseStringBody (0x5C :: 0x75 :: a :: b :: c :: d :: rest) =
      consDecoded v (parseStringBody rest) := by
  rw [parseStringBody.eq_def]
  simp [hv]

theorem parseStringBody_plain (c : Nat) (rest : JSString) (h1 : c ≠ 0x22) (h2 : c ≠ 0x5C)
    (h3 : ¬ c < 0x20) :
    parseStringBody (c :: rest) = consDecoded c (parseStringBody rest) := by
  rw [parseStringBody.eq_def]
  simp [h1, h2, h3]

theorem parseStringBody_quoteCodeUnit (c : Nat) (tail : JSString) :
    parseStringBody (quoteCodeUnit c ++ tail) = consDecoded c (parseStringBody tail) := by
  unfold quoteCodeUnit
  split_ifs with h1 h2 h3 h4 h5 h6 h7 h8
  · subst h1; exact parseStringBody_escape _ _ _ (by decide) (by decide)
  · subst h2; exact parseStringBody_escape _ _ _ (by decide) (by decide)
  · subst h3; exact parseStringBody_escape _ _ _ (by decide) (by decide)
  · subst h4; exact parseStringBody_escape _ _ _ (by decide) (by decide)
  · subst h5; exact parseStringBody_escape _ _ _ (by decide) (by decide)
  · subst h6; exact parseStringBody_escape _ _ _ (by decide) (by decide)
  · subst h7; exact parseStringBody_escape _ _ _ (by decide) (by decide)
  · simp [isLeadingSurrogate, isTrailingSurrogate] at h8
    exact parseStringBody_unicode _ _ _ _ _ _ (hex4_unicodeEscape c (by omega))
  · simp [isLeadingSurrogate, isTrailingSurrogate] at h8
    exact parseStringBody_plain c tail h6 h7 (by omega)

theorem parseStringBody_pair (c d : Nat) (tail : JSString)
    (hc : isLeadingSurrogate c = true) (hd : isTrailingSurrogate d = true) :
    parseStringBody (c :: d :: tail) =
      consDecoded c (consDecoded d (parseStringBody tail)) := by
  simp [isLeadingSurrogate] at hc
  simp [isTrailingSurrogate] at hd
  rw [parseStringBody_plain c _ (by omega) (by omega) (by omega),
    parseStringBody_plain d _ (by omega) (by omega) (by omega)]

/-- Reading back a quoted string: the decoder returns the string that was
quoted, code unit for code unit, and stops right after the closing quote. -/
theorem parseStringBody_quoteCodeUnits (s rest : JSString) :
    parseStringBody (quoteCodeUnits s ++ 0x22 :: rest) = some (s, rest) := by
  induction s using quoteCodeUnits.induct with
  | case1 => exact parseStringBody_quote rest
  | case2 c =>
    simp only [quoteCodeUnits]
    rw [parseStringBody_quoteCodeUnit, parseStringBody_quote]
    rfl
  | case3 c d tl h ih =>
    simp only [quoteCodeUnits, h, if_true, List.cons_append]
    simp only [Bool.and_eq_true] at h
    rw [parseStringBody_pair c d _ h.1 h.2, ih]
    rfl
  | case4 c d tl h ih =>
    rw [quoteCodeUnits, if_neg h, List.append_assoc, parseStringBody_quoteCodeUnit, ih]
    rfl

theorem skipWhiteSpace_cons_of_not (c : Nat) (rest : JSString)
    (h : isJSONWhiteSpace c = false) : skipWhiteSpace (c :: rest) = c :: rest := by
  simp [skipWhiteSpace, List.dropWhile_cons, h]

theorem stringify_single_member (k t : JSString) :
    stringify (.object [(k, .string t)]) =
      0x7B :: 0x22 :: (quoteCodeUnits k ++
        0x22 :: 0x3A :: 0x22 :: (quoteCodeUnits t ++ 0x22 :: [0x7D])) := by
  simp [stringify, stringifyMembers, quoteJSONString]

theorem parseValue_string (n : Nat) (t rest : JSString) :
    parseValue (n + 1) (0x22 :: (quoteCodeUnits t ++ 0x22 :: rest)) =
      some (.string t, rest) := by
  rw [parseValue, skipWhiteSpace_cons_of_not 0x22 _ (by decide)]
  dsimp only
  rw [if_pos rfl, parseStringBody_quoteCodeUnits]

theorem parseMembers_single (n : Nat) (k t rest : JSString) :
    parseMembers (n + 2) (0x22 :: (quoteCodeUnits k ++
        0x22 :: 0x3A :: 0x22 :: (quoteCodeUnits t ++ 0x22 :: 0x7D :: rest))) =
      some ([(k, .string t)], rest) := by
  rw [parseMembers]
  simp only [if_true, parseStringBody_quoteCodeUnits,
    skipWhiteSpace_cons_of_not 0x3A _ (by decide), parseValue_string,
    skipWhiteSpace_cons_of_not 0x7D _ (by decide)]

theorem parseValue_single_member (n : Nat) (k t : JSString) :
    parseValue (n + 3) (stringify (.object [(k, .string t)])) =
      some (.object [(k, .string t)], []) := by
  rw [stringify_single_member, parseValue, skipWhiteSpace_cons_of_not 0x7B _ (by decide)]
  dsimp only
  rw [if_neg (by decide), if_pos rfl, skipWhiteSpace_cons_of_not 0x22 _ (by decide)]
  dsimp only
  rw [if_neg (by decide), parseMembers_single]

/-- Decoding the serialisation of an object with one string member gives the
object back. -/
theorem parse_stringify_single_member (k t : JSString) :
    parse (stringify (.object [(k, .string t)])) = some (.object [(k, .string t)]) := by
  have hlen : ∃ n, (stringify (.object [(k, .string t)])).length + 1 = n + 3 := by
    rw [stringify_single_member]
    exact ⟨_, rfl⟩
  obtain ⟨n, hn⟩ := hlen
  rw [parse, hn, parseValue_single_member]
  rfl

/-- C3: for a text that passes validation, the body of the request is the JSON
serialisation of an object with the single member "content", and decoding the
body as JSON gives an object whose only member, "content", is the original
text, code unit for code unit: untrimmed, and with quotes, backslashes,
control characters and lone surrogates restored from their escapes. -/
theorem body_round_trips (doc : Document) (input : InputElement) (o : FetchOutcome)
    (hText : doc.text = some input) (hValid : trim input.value ≠ []) :
    ∃ req, requests (clickHandler doc o).effects = [req] ∧
      req.body = stringify (.object [(utf16 "content", .string input.value)]) ∧
      parse req.body = some (.object [(utf16 "content", .string input.value)]) :=
  ⟨printRequest input.value, requests_clickHandler_of_nonempty doc input o hText hValid, rfl,
    parse_stringify_single_member _ _⟩

theorem body_round_trips_witness :
    trim (utf16 "Hello") ≠ [] ∧
    stringify (.object [(utf16 "content", .string (utf16 "Hello"))]) =
      utf16 "\x7b\"content\":\"Hello\"\x7d" ∧
    ∃ req, requests (clickHandler ⟨some ⟨utf16 "Hello"⟩, some ⟨[], []⟩⟩
        (.fulfilled ⟨200, []⟩)).effects = [req] ∧
      req.body = stringify (.object [(utf16 "content",
        .string (InputElement.mk (utf16 "Hello")).value)]) ∧
      parse req.body = some (.object [(utf16 "content",
        .string (InputElement.mk (utf16 "Hello")).value)]) :=
  ⟨by decide, by decide, body_round_trips ⟨some ⟨utf16 "Hello"⟩, some ⟨[], []⟩⟩ ⟨utf16 "Hello"⟩
    (.fulfilled ⟨200, []⟩) rfl (by decide)⟩

/-! ## Overlapping activations -/

theorem onClick_next (doc : Document) :
    (∃ req, (onClick doc).next = .awaiting req ∧ statusWrites (onClick doc).effects = []) ∨
    (∃ c, (onClick doc).next = .finished c) := by
  cases ht : doc.text with
  | none => exact Or.inr ⟨.throw .typeError, by simp [onClick, ht]⟩
  | some input =>
    by_cases hE : trim input.value = []
    · exact Or.inr ⟨_, by rw [onClick_of_empty doc input ht hE]⟩
    · exact Or.inl ⟨_, by rw [onClick_of_nonempty doc input ht hE], by
        rw [onClick_of_nonempty doc input ht hE]; rfl⟩

theorem onSettled_status (o : FetchOutcome) (doc : Document) (el : StatusElement)
    (hStatus : doc.status = some el) :
    (statusWrites (onSettled o doc).effects).isEmpty = false ∧
    (onSettled o doc).doc.text = doc.text ∧
    ∃ el2, (onSettled o doc).doc.status = some el2 := by
  cases o with
  | fulfilled r =>
    cases hok : r.ok
    · rw [onSettled_of_not_ok doc el r hStatus hok]
      exact ⟨rfl, rfl, _, rfl⟩
    · rw [onSettled_of_ok doc el r hStatus hok]
      exact ⟨rfl, rfl, _, rfl⟩
  | rejected t =>
    rw [onSettled_of_rejected doc el t hStatus]
    exact ⟨rfl, rfl, _, rfl⟩

/-- The status a settlement writes does not depend on the status displayed
before it, nor on anything else in the document. -/
theorem onSettled_overwrites (o : FetchOutcome) (doc doc2 : Document) (el el2 : StatusElement)
    (hStatus : doc.status = some el) (hStatus2 : doc2.status = some el2) :
    (onSettled o doc).doc.status = (onSettled o doc2).doc.status := by
  cases o with
  | fulfilled r =>
    cases hok : r.ok
    · rw [onSettled_of_not_ok doc el r hStatus hok, onSettled_of_not_ok doc2 el2 r hStatus2 hok]
    · rw [onSettled_of_ok doc el r hStatus hok, onSettled_of_ok doc2 el2 r hStatus2 hok]
  | rejected t =>
    rw [onSettled_of_rejected doc el t hStatus, onSettled_of_rejected doc2 el2 t hStatus2]

theorem step_settle_of_mem (s : Session) (id : Nat) (o : FetchOutcome) (el : StatusElement)
    (hStatus : s.doc.status = some el) (hMem : id ∈ s.pending) :
    step s (.settle id o) =
      { doc := (onSettled o s.doc).doc, pending := s.pending.erase id, started := s.started,
        writer := some id } := by
  have h := (onSettled_status o s.doc el hStatus).1
  simp [step, hMem, h]

/-- C10: when two submissions are suspended at their `fetch` at the same time on
a page with a status element, each settlement overwrites the status with a
value that does not depend on the status displayed before, so after both have
settled the displayed text and colour are exactly those the submission settled
last produces, whichever of the two orders the settlements come in. -/
theorem last_settlement_wins (s : Session) (el : StatusElement) (i j : Nat)
    (oi oj : FetchOutcome) (hStatus : s.doc.status = some el) (hi : i ∈ s.pending)
    (hj : j ∈ s.pending) (hij : i ≠ j) :
    ((run s [.settle i oi, .settle j oj]).doc.status = (onSettled oj s.doc).doc.status ∧
      (run s [.settle i oi, .settle j oj]).writer = some j) ∧
    ((run s [.settle j oj, .settle i oi]).doc.status = (onSettled oi s.doc).doc.status ∧
      (run s [.settle j oj, .settle i oi]).writer = some i) ∧
    (∀ (d : Document) (e : StatusElement), d.status = some e →
      (onSettled oi d).doc.status = (onSettled oi s.doc).doc.status ∧
      (onSettled oj d).doc.status = (onSettled oj s.doc).doc.status) := by
  obtain ⟨eli, hEli⟩ := (onSettled_status oi s.doc el hStatus).2.2
  obtain ⟨elj, hElj⟩ := (onSettled_status oj s.doc el hStatus).2.2
  have hji : j ∈ s.pending.erase i := (List.mem_erase_of_ne (Ne.symm hij)).mpr hj
  have hij2 : i ∈ s.pending.erase j := (List.mem_erase_of_ne hij).mpr hi
  refine ⟨?_, ?_, ?_⟩
  · simp only [run, List.foldl_cons, List.foldl_nil]
    rw [step_settle_of_mem s i oi el hStatus hi, step_settle_of_mem _ j oj eli hEli hji]
    exact ⟨onSettled_overwrites oj _ _ eli el hEli hStatus, rfl⟩
  · simp only [run, List.foldl_cons, List.foldl_nil]
    rw [step_settle_of_mem s j oj el hStatus hj, step_settle_of_mem _ i oi elj hElj hij2]
    exact ⟨onSettled_overwrites oi _ _ elj el hElj hStatus, rfl⟩
  · intro d e hd
    exact ⟨onSettled_overwrites oi d s.doc e el hd hStatus,
      onSettled_overwrites oj d s.doc e el hd hStatus⟩

theorem last_settlement_wins_witness :
    twoInFlight.doc.status = some ⟨[], []⟩ ∧ 0 ∈ twoInFlight.pending ∧
    1 ∈ twoInFlight.pending ∧ 0 ≠ 1 ∧
    ((run twoInFlight [.settle 0 (.fulfilled ⟨500, []⟩), .settle 1 (.fulfilled ⟨200, []⟩)]
        ).doc.status = (onSettled (.fulfilled ⟨200, []⟩) twoInFlight.doc).doc.status ∧
      (run twoInFlight [.settle 0 (.fulfilled ⟨500, []⟩), .settle 1 (.fulfilled ⟨200, []⟩)]
        ).writer = some 1) ∧
    ((run twoInFlight [.settle 1 (.fulfilled ⟨200, []⟩), .settle 0 (.fulfilled ⟨500, []⟩)]
        ).doc.status = (onSettled (.fulfilled ⟨500, []⟩) twoInFlight.doc).doc.status ∧
      (run twoInFlight [.settle 1 (.fulfilled ⟨200, []⟩), .settle 0 (.fulfilled ⟨500, []⟩)]
        ).writer = some 0) ∧
    (∀ (d : Document) (e : StatusElement), d.status = some e →
      (onSettled (.fulfilled ⟨500, []⟩) d).doc.status =
        (onSettled (.fulfilled ⟨500, []⟩) twoInFlight.doc).doc.status ∧
      (onSettled (.fulfilled ⟨200, []⟩) d).doc.status =
        (onSettled (.fulfilled ⟨200, []⟩) twoInFlight.doc).doc.status) :=
  ⟨by decide, by decide, by decide, by decide,
    last_settlement_wins twoInFlight ⟨[], []⟩ 0 1 (.fulfilled ⟨500, []⟩) (.fulfilled ⟨200, []⟩)
      (by decide) (by decide) (by decide) (by decide)⟩

/-! ## The status over time -/

theorem wellNumbered_step (s : Session) (e : Event) (h : WellNumbered s) :
    WellNumbered (step s e) := by
  obtain ⟨hN, hL, hW⟩ := h
  cases e with
  | edit t => exact ⟨hN, hL, hW⟩
  | click =>
    have hfresh : s.started ∉ s.pending := fun hm => Nat.lt_irrefl _ (hL _ hm)
    rcases onClick_next s.doc with ⟨req, hn, hw⟩ | ⟨c, hn⟩
    · refine ⟨?_, ?_, ?_⟩
      · simp only [step, hn]
        exact List.Nodup.append hN (List.nodup_singleton _) (by simpa using hfresh)
      · intro i hi
        simp only [step, hn, List.mem_append, List.mem_singleton] at hi
        show i < s.started + 1
        rcases hi with hi | hi
        · exact Nat.lt_succ_of_lt (hL i hi)
        · omega
      · intro k hk
        simp only [step, hw, List.isEmpty_nil, if_true] at hk
        obtain ⟨h1, h2⟩ := hW k hk
        refine ⟨Nat.lt_succ_of_lt h1, ?_⟩
        simp only [step, hn, List.mem_append, List.mem_singleton, not_or]
        exact ⟨h2, by omega⟩
    · refine ⟨?_, ?_, ?_⟩
      · simp only [step, hn]
        exact hN
      · intro i hi
        simp only [step, hn] at hi
        exact Nat.lt_succ_of_lt (hL i hi)
      · intro k hk
        simp only [step, hn]
        simp only [step] at hk
        split_ifs at hk with hw
        · obtain ⟨h1, h2⟩ := hW k hk
          exact ⟨Nat.lt_succ_of_lt h1, h2⟩
        · cases hk
          exact ⟨Nat.lt_succ_self _, hfresh⟩
  | settle id o =>
    by_cases hm : id ∈ s.pending
    · refine ⟨?_, ?_, ?_⟩
      · simp only [step, hm, if_true]
        exact hN.erase id
      · intro i hi
        simp only [step, hm, if_true] at hi ⊢
        exact hL i (List.mem_of_mem_erase hi)
      · intro k hk
        simp only [step, hm, if_true] at hk ⊢
        split_ifs at hk with hw
        · obtain ⟨h1, h2⟩ := hW k hk
          exact ⟨h1, fun hc => h2 (List.mem_of_mem_erase hc)⟩
        · cases hk
          exact ⟨hL _ hm, fun hc => (List.Nodup.mem_erase_iff hN).mp hc |>.1 rfl⟩
    · simp only [step, hm, if_false]
      exact ⟨hN, hL, hW⟩

theorem wellNumbered_run (events : List Event) (s : Session) (h : WellNumbered s) :
    WellNumbered (run s events) := by
  induction events generalizing s with
  | nil => exact h
  | cons e es ih => exact ih (step s e) (wellNumbered_step s e h)

theorem sequential_step (s : Session) (e : Event) (h : Sequential s)
    (hClick : e = .click → s.pending = []) : Sequential (step s e) := by
  obtain ⟨⟨input, el, hText, hStatus⟩, hS⟩ := h
  cases e with
  | edit t =>
    refine ⟨⟨⟨t⟩, el, ?_, hStatus⟩, hS⟩
    simp [step, hText]
  | click =>
    have hp : s.pending = [] := hClick rfl
    by_cases hE : trim input.value = []
    · have hc : onClick s.doc =
          ⟨{ s.doc with status := some ⟨utf16 "Введите текст!", utf16 "red"⟩ },
            [.setTextContent (utf16 "Введите текст!"), .setColor (utf16 "red")],
            .finished .normal⟩ := by
        rw [onClick_of_empty s.doc input hText hE, setStatus_of_some _ _ s.doc el hStatus]
      refine ⟨⟨input, ⟨utf16 "Введите текст!", utf16 "red"⟩, ?_, ?_⟩, Or.inl ⟨?_, Or.inr ?_⟩⟩
      · simp [step, hc, hText]
      · simp only [step, hc]
      · simp [step, hc, hp]
      · simp [step, hc, statusWrites]
    · have hc := onClick_of_nonempty s.doc input hText hE
      refine ⟨⟨input, el, ?_, ?_⟩, Or.inr ⟨?_, ?_⟩⟩
      · simp [step, hc, hText]
      · simp [step, hc, hStatus]
      · simp [step, hc, hp]
      · simp [step]
  | settle id o =>
    by_cases hm : id ∈ s.pending
    · obtain ⟨_, ht, el2, hs2⟩ := onSettled_status o s.doc el hStatus
      rw [step_settle_of_mem s id o el hStatus hm]
      rcases hS with ⟨hp, _⟩ | ⟨hp, hpos⟩
      · rw [hp] at hm
        cases hm
      · have hid : id = s.started - 1 := by simpa [hp] using hm
        refine ⟨⟨input, el2, by rw [← hText]; exact ht, hs2⟩, Or.inl ⟨?_, Or.inr ?_⟩⟩
        · simp [hp, hid]
        · simp [hid]
    · have hst : step s (.settle id o) = s := by simp [step, hm]
      rw [hst]
      exact ⟨⟨input, el, hText, hStatus⟩, hS⟩

theorem sequential_run (events : List Event) (s : Session) (h : Sequential s)
    (hNo : noOverlap s events = true) : Sequential (run s events) := by
  induction events generalizing s with
  | nil => exact h
  | cons e es ih =>
    simp only [noOverlap, Bool.and_eq_true] at hNo
    refine ih (step s e) (sequential_step s e h ?_) hNo.2
    intro he
    subst he
    simpa using hNo.1

/-- C9, as stated, fails: after two overlapping submissions of which the second
is answered 200 first and the first is answered 500 afterwards, nothing is
pending and the status displayed is the failure written by activation 0, not
that of activation 1, the most recent of the two. -/
theorem latest_attempt_counterexample :
    overtaken.started = 2 ∧ overtaken.pending = [] ∧ overtaken.writer = some 0 ∧
    overtaken.writer ≠ some (overtaken.started - 1) ∧
    overtaken.doc.status = some ⟨utf16 "Ошибка при отправке!", utf16 "red"⟩ ∧
    (onSettled (.fulfilled ⟨200, []⟩) overtaken.doc).doc.status =
      some ⟨utf16 "Отправлено на печать!", utf16 "green"⟩ := by
  decide

theorem onSettled_reportedStatus (o : FetchOutcome) (doc : Document) (el : StatusElement)
    (hStatus : doc.status = some el) :
    (onSettled o doc).doc.status = some (reportedStatus o) := by
  cases o with
  | fulfilled r =>
    cases hok : r.ok
    · have hc : ¬ (200 ≤ r.status ∧ r.status ≤ 299) := fun h => by
        rw [(ok_iff r).mpr h] at hok
        cases hok
      rw [onSettled_of_not_ok doc el r hStatus hok]
      simp [reportedStatus, hc]
    · have hc : 200 ≤ r.status ∧ r.status ≤ 299 := (ok_iff r).mp hok
      rw [onSettled_of_ok doc el r hStatus hok]
      simp [reportedStatus, hc]
  | rejected t =>
    rw [onSettled_of_rejected doc el t hStatus]
    rfl

/-- One turn of the event loop on a page with both elements keeps both
elements, and the status it leaves displayed is the one the event reports, or
the one displayed before when the event reports nothing. -/
theorem step_reportOf (s : Session) (e : Event)
    (h : ∃ input el, s.doc.text = some input ∧ s.doc.status = some el) :
    (∃ input el, (step s e).doc.text = some input ∧ (step s e).doc.status = some el) ∧
    (step s e).doc.status =
      (match reportOf s e with
        | some r => some r.2
        | none => s.doc.status) ∧
    (step s e).writer =
      (match reportOf s e with
        | some r => some r.1
        | none => s.writer) := by
  obtain ⟨input, el, hText, hStatus⟩ := h
  cases e with
  | edit t =>
    refine ⟨⟨⟨t⟩, el, ?_, hStatus⟩, rfl, rfl⟩
    simp [step, hText]
  | click =>
    by_cases hE : trim input.value = []
    · have hc : onClick s.doc =
          ⟨{ s.doc with status := some ⟨utf16 "Введите текст!", utf16 "red"⟩ },
            [.setTextContent (utf16 "Введите текст!"), .setColor (utf16 "red")],
            .finished .normal⟩ := by
        rw [onClick_of_empty s.doc input hText hE, setStatus_of_some _ _ s.doc el hStatus]
      refine ⟨⟨input, ⟨utf16 "Введите текст!", utf16 "red"⟩, ?_, ?_⟩, ?_, ?_⟩
      · simp [step, hc, hText]
      · simp only [step, hc]
      · simp [step, hc, reportOf, hText, hE]
      · simp [step, hc, reportOf, hText, hE, statusWrites]
    · have hc := onClick_of_nonempty s.doc input hText hE
      refine ⟨⟨input, el, ?_, ?_⟩, ?_, ?_⟩
      · simp [step, hc, hText]
      · simp [step, hc, hStatus]
      · simp [step, hc, reportOf, hText, hE]
      · simp [step, hc, reportOf, hText, hE, statusWrites]
  | settle id o =>
    by_cases hm : id ∈ s.pending
    · obtain ⟨_, ht, el2, hs2⟩ := onSettled_status o s.doc el hStatus
      rw [step_settle_of_mem s id o el hStatus hm]
      refine ⟨⟨input, el2, by rw [← hText]; exact ht, hs2⟩, ?_, ?_⟩
      · simp [reportOf, hm, onSettled_reportedStatus o s.doc el hStatus]
      · simp [reportOf, hm]
    · have hst : step s (.settle id o) = s := by simp [step, hm]
      rw [hst]
      refine ⟨⟨input, el, hText, hStatus⟩, ?_, ?_⟩
      · simp [reportOf, hm]
      · simp [reportOf, hm]

theorem run_lastReport (events : List Event) (s : Session)
    (h : ∃ input el, s.doc.text = some input ∧ s.doc.status = some el) :
    (run s events).doc.status =
      (match lastReport s events with
        | some r => some r.2
        | none => s.doc.status) ∧
    (run s events).writer =
      (match lastReport s events with
        | some r => some r.1
        | none => s.writer) := by
  induction events generalizing s with
  | nil => exact ⟨rfl, rfl⟩
  | cons e es ih =>
    obtain ⟨hEl, hSt, hWr⟩ := step_reportOf s e h
    obtain ⟨ih1, ih2⟩ := ih (step s e) hEl
    show (run (step s e) es).doc.status = _ ∧ (run (step s e) es).writer = _
    rw [ih1, ih2, lastReport]
    cases hl : lastReport (step s e) es with
    | some r => exact ⟨rfl, rfl⟩
    | none => exact ⟨hSt, hWr⟩

/-- C9, amended: in every state reachable from a freshly loaded page with both
elements, the displayed status text and colour are those of the last report
made (last write wins): the status of the outcome of the request that settled
last, or "Введите текст!" in red if a blank-input activation came after it, or
the initial status if nothing has reported yet. The activation it belongs to
has been started and is no longer pending, and may be an earlier one than the
most recent. When no activation is started while a request is pending, then in
every state with nothing pending and at least one activation the displayed
status is the one reported by the most recent activation. -/
theorem status_of_last_reported (input : InputElement) (el : StatusElement)
    (events : List Event) :
    (run (load input el) events).doc.status =
      (match lastReport (load input el) events with
        | some r => some r.2
        | none => some el) ∧
    (run (load input el) events).writer =
      (match lastReport (load input el) events with
        | some r => some r.1
        | none => none) ∧
    (∀ k, (run (load input el) events).writer = some k →
      k < (run (load input el) events).started ∧ k ∉ (run (load input el) events).pending) ∧
    (noOverlap (load input el) events = true → (run (load input el) events).pending = [] →
      0 < (run (load input el) events).started →
      ∃ st, lastReport (load input el) events =
          some ((run (load input el) events).started - 1, st) ∧
        (run (load input el) events).doc.status = some st) := by
  obtain ⟨hSt, hWr⟩ := run_lastReport events (load input el) ⟨input, el, rfl, rfl⟩
  refine ⟨hSt, hWr, ?_, ?_⟩
  · have h0 : WellNumbered (load input el) := by
      refine ⟨List.nodup_nil, ?_, ?_⟩
      · intro i hi
        cases hi
      · intro k hk
        cases hk
    exact (wellNumbered_run events _ h0).2.2
  · intro hNo hp hpos
    have h0 : Sequential (load input el) := ⟨⟨input, el, rfl, rfl⟩, Or.inl ⟨rfl, Or.inl rfl⟩⟩
    have hw : (run (load input el) events).writer =
        some ((run (load input el) events).started - 1) := by
      rcases (sequential_run events _ h0 hNo).2 with ⟨_, h1 | h1⟩ | ⟨h2, _⟩
      · omega
      · exact h1
      · rw [hp] at h2
        cases h2
    cases hl : lastReport (load input el) events with
    | none =>
      rw [hl] at hWr
      rw [hw] at hWr
      cases hWr
    | some r =>
      rw [hl] at hWr hSt
      rw [hw] at hWr
      refine ⟨r.2, ?_, hSt⟩
      have h1 : (run (load input el) events).started - 1 = r.1 := Option.some.inj hWr
      rw [h1]

theorem status_of_last_reported_witness :
    noOverlap (load ⟨utf16 "Hello"⟩ ⟨[], []⟩)
      [.click, .settle 0 (.fulfilled ⟨500, []⟩), .edit [], .click] = true ∧
    (run (load ⟨utf16 "Hello"⟩ ⟨[], []⟩)
      [.click, .settle 0 (.fulfilled ⟨500, []⟩), .edit [], .click]).pending = [] ∧
    0 < (run (load ⟨utf16 "Hello"⟩ ⟨[], []⟩)
      [.click, .settle 0 (.fulfilled ⟨500, []⟩), .edit [], .click]).started ∧
    ∃ st, lastReport (load ⟨utf16 "Hello"⟩ ⟨[], []⟩)
        [.click, .settle 0 (.fulfilled ⟨500, []⟩), .edit [], .click] =
        some ((run (load ⟨utf16 "Hello"⟩ ⟨[], []⟩)
          [.click, .settle 0 (.fulfilled ⟨500, []⟩), .edit [], .click]).started - 1, st) ∧
      (run (load ⟨utf16 "Hello"⟩ ⟨[], []⟩)
        [.click, .settle 0 (.fulfilled ⟨500, []⟩), .edit [], .click]).doc.status = some st :=
  ⟨by decide, by decide, by decide,
    (status_of_last_reported ⟨utf16 "Hello"⟩ ⟨[], []⟩
      [.click, .settle 0 (.fulfilled ⟨500, []⟩), .edit [], .click]).2.2.2
      (by decide) (by decide) (by decide)⟩

end PrintApp
